import Mathlib

/-!
Shallow embedding of src/collect_weather.py.

Modelling choices:
- JSON scalar values are modelled by Value (rational numbers or strings);
  Python arithmetic on a string operand raises TypeError, modelled as
  Except.error.
- Timestamps are rational numbers measured in minutes (datetime /
  timedelta arithmetic in the source only ever adds or subtracts minute
  spans and compares).
- Python dicts (the tracker registry, the outbound wu_data record, a
  reading) are association lists with insertion-order semantics:
  assignment replaces an existing binding in place or appends a new one,
  matching dict update order.
- Python exceptions are Except; a function that mutates global state
  before raising returns the mutated state alongside the error, matching
  the fact that in-place mutations survive a caught exception.
- datetime.now() is an explicit rational parameter threaded to the
  functions that call it.
-/

inductive Value where
  | num : ℚ → Value
  | str : String → Value
deriving DecidableEq, Repr

/-- Python subtraction `a - b`; raises TypeError unless both operands are
numeric (source line 59: `delta = last_value - first_value`). -/
def valSub : Value → Value → Except String ℚ
  | .num a, .num b => .ok (a - b)
  | _, _ => .error "TypeError"

/-- DeltaTracker (source lines 32-60): field name, deque of
(timestamp, value) pairs, window length in minutes. -/
structure DeltaTracker where
  field_name : String
  values : List (ℚ × Value)
  period_in_minutes : ℚ
deriving DecidableEq, Repr

/-- The eviction loop (source lines 48-49):
`while len(self.values) and self.values[0][0] < cutoff_time: popleft()`. -/
def evict (cutoff : ℚ) : List (ℚ × Value) → List (ℚ × Value)
  | [] => []
  | (t, v) :: rest => if t < cutoff then evict cutoff rest else (t, v) :: rest

/-- The boundary-delta computation on the retained deque (source lines
52-60): 0 when fewer than two entries remain, otherwise
`max(0, last_value - first_value)`; the subtraction raises when a boundary
value is not numeric. -/
def boundaryDelta : List (ℚ × Value) → Except String ℚ
  | [] => .ok 0
  | [_] => .ok 0
  | first :: second :: rest =>
    match valSub ((second :: rest).getLast (by simp)).2 first.2 with
    | .ok d => .ok (max 0 d)
    | .error e => .error e

/-- DeltaTracker.add_value (source lines 40-60) with the timestamp made
explicit (the source defaults it to datetime.now()). Appends, evicts old
entries from the head, then returns the boundary delta. The mutated
tracker is returned even when the delta computation raises, because the
in-place deque mutations have already happened. -/
def DeltaTracker.add_value (tr : DeltaTracker) (value : Value) (timestamp : ℚ) :
    Except String ℚ × DeltaTracker :=
  let appended := tr.values ++ [(timestamp, value)]
  let cutoff := timestamp - tr.period_in_minutes
  let retained := evict cutoff appended
  (boundaryDelta retained, { tr with values := retained })

/-- The module-level dict `_stateful_delta_trackers` (source line 23),
mapping field name to tracker. -/
abbrev Registry := List (String × DeltaTracker)

/-- Dict lookup `d[k]` / `k in d`. -/
def Registry.lookup : Registry → String → Option DeltaTracker
  | [], _ => none
  | (k, tr) :: rest, f => if k = f then some tr else Registry.lookup rest f

/-- Dict assignment `d[k] = v`: replaces the existing binding in place or
appends a new one. -/
def Registry.set : Registry → String → DeltaTracker → Registry
  | [], f, tr => [(f, tr)]
  | (k, old) :: rest, f, tr =>
    if k = f then (k, tr) :: rest else (k, old) :: Registry.set rest f tr

/-- The shared body of delta_hour_mm_to_in / delta_day_mm_to_in (source
lines 126-136): create the tracker on first use with the requesting
conversion's window, feed the value, divide the delta by 25.4. The
registry resulting from the in-place mutations is returned even on error. -/
def deltaMmToIn (window : ℚ) (field_name : String) (x : Value) (now : ℚ)
    (reg : Registry) : Except String Value × Registry :=
  let reg1 := match reg.lookup field_name with
    | some _ => reg
    | none => reg.set field_name ⟨field_name, [], window⟩
  match reg1.lookup field_name with
  | none => (.error "KeyError", reg1)
  | some tr =>
    let (d, tr') := tr.add_value x now
    let reg2 := reg1.set field_name tr'
    match d with
    | .ok deltaMm => (.ok (.num (deltaMm / 25.4)), reg2)
    | .error e => (.error e, reg2)

/-- A stateless numeric conversion: applies f to a numeric value, raises
TypeError on a string operand (as the Python arithmetic would). -/
def numOp (f : ℚ → ℚ) : Value → Except String Value
  | .num v => .ok (.num (f v))
  | .str _ => .error "TypeError"

/-- The `conversions` dispatch dict of apply_conversion (source lines
138-146): some result when the kind is a key of the dict, none for the
KeyError case. local_to_utc (source line 143) returns the UTC calendar
breakdown of a numeric epoch value, modelled by tagging the number, and
falls back to the current time for non-numeric input. -/
def conversionsApply (now : ℚ) (field_name : String) (kind : String)
    (x : Value) (reg : Registry) : Option (Except String Value × Registry) :=
  if kind = "c_to_f" then some (numOp (fun v => v * 9 / 5 + 32) x, reg)
  else if kind = "ms_to_mph" then some (numOp (fun v => v * 2.237) x, reg)
  else if kind = "mm_to_in" then some (numOp (fun v => v / 25.4) x, reg)
  else if kind = "hpa_to_inhg" then some (numOp (fun v => v * 0.02953) x, reg)
  else if kind = "local_to_utc" then
    some (match x with
      | .num t => .ok (.str ("utctimetuple(" ++ toString t.num ++ "/" ++ toString t.den ++ ")"))
      | .str _ => .ok (.num now), reg)
  else if kind = "delta_hour_mm_to_in" then some (deltaMmToIn 60 field_name x now reg)
  else if kind = "delta_day_mm_to_in" then some (deltaMmToIn (60 * 24) field_name x now reg)
  else none

/-- apply_conversion (source lines 125-154). `if conversion_type:` is the
Python truthiness test, false for the empty string; an unknown kind
(KeyError on the dispatch dict) or a conversion that raises is caught and
the original value is returned, with any registry mutations that happened
before the raise kept. -/
def apply_conversion (now : ℚ) (value : Value) (conversion_type : String)
    (field_name : String) (reg : Registry) : Value × Registry :=
  if conversion_type = "" then (value, reg)
  else
    match conversionsApply now field_name conversion_type value reg with
    | none => (value, reg)
    | some (.ok v, reg') => (v, reg')
    | some (.error _, reg') => (value, reg')

/-- A decoded rtl_433 reading: a JSON object, modelled as an ordered
association list of fields. -/
abbrev Reading := List (String × Value)

def Reading.lookup : Reading → String → Option Value
  | [], _ => none
  | (k, v) :: rest, f => if k = f then some v else Reading.lookup rest f

/-- One entry of the `translations` list from configuration (source lines
164-174): source field, destination field, optional conversion
(`if 'conversion' in trans`). -/
structure Translation where
  rtl_field : String
  field : String
  conversion : Option String
deriving DecidableEq, Repr

/-- The outbound Wunderground record, a dict like the registry. -/
abbrev WuData := List (String × Value)

def WuData.lookup : WuData → String → Option Value
  | [], _ => none
  | (k, v) :: rest, f => if k = f then some v else WuData.lookup rest f

def WuData.set : WuData → String → Value → WuData
  | [], f, v => [(f, v)]
  | (k, old) :: rest, f, v =>
    if k = f then (k, v) :: rest else (k, old) :: WuData.set rest f v

/-- The module-level base record DEFAULT_WU_DATA (source lines 15-18). -/
def DEFAULT_WU_DATA : WuData := [("dateutc", .str "now"), ("action", .str "updateraw")]

/-- The wunderground section of the loaded configuration used by the
translator (source lines 161-162). -/
structure Config where
  station_id : String
  station_key : String
deriving DecidableEq, Repr

/-- The body of the rule loop of populate_wunderground_request_data
(source lines 164-174): skip the rule when its source field is absent,
otherwise convert when a conversion is specified and assign the
destination field. -/
def populateStep (now : ℚ) (json_data : Reading)
    (acc : WuData × Registry) (trans : Translation) : WuData × Registry :=
  match json_data.lookup trans.rtl_field with
  | none => acc
  | some value =>
    let converted := match trans.conversion with
      | none => (value, acc.2)
      | some conv => apply_conversion now value conv trans.rtl_field acc.2
    (WuData.set acc.1 trans.field converted.1, converted.2)

/-- populate_wunderground_request_data (source lines 157-175).
`wu_data = DEFAULT_WU_DATA` on line 160 binds the module-level dict
without copying it, so the current state of that shared dict is an input
here and the returned record is its new state: every write persists into
the next call. -/
def populate_wunderground_request_data (now : ℚ) (json_data : Reading)
    (translations : List Translation) (config : Config)
    (wu_data : WuData) (reg : Registry) : WuData × Registry :=
  let wu1 := wu_data.set "PASSWORD" (.str config.station_key)
  let wu2 := wu1.set "ID" (.str config.station_id)
  translations.foldl (populateStep now json_data) (wu2, reg)

/-- The state of the pickle file at the configured path, as seen by
load_delta_trackers: absent, present but failing to open or unpickle, or
present and holding a saved registry. -/
inductive PickleFile where
  | absent : PickleFile
  | corrupt : PickleFile
  | valid : Registry → PickleFile
deriving DecidableEq, Repr

/-- load_delta_trackers (source lines 73-85), a total function of the file
state and the current global registry: an absent file only logs and leaves
the registry as it is; an exception while opening or unpickling is caught
and resets the registry to empty; a successful load replaces it. -/
def load_delta_trackers (file : PickleFile) (reg : Registry) : Registry :=
  match file with
  | .absent => reg
  | .corrupt => []
  | .valid saved => saved

/-- The registry right after module initialization (source line 23),
before main calls load_delta_trackers. -/
def initialRegistry : Registry := []

/-- The wunderground credentials as read from the loaded config by main
(source lines 214-215): config.get(...).get(...) yields None when the key
is missing. -/
structure MainConfig where
  station_id : Option String
  station_key : Option String
deriving DecidableEq, Repr

/-- Python truthiness of `not station_id` (source line 217): true for
None and for the empty string. -/
def credMissing : Option String → Bool
  | none => true
  | some s => s = ""

/-- How main leaves the process during startup. -/
inductive StartupOutcome where
  | exitCode : Nat → StartupOutcome
  | enterLoop : MainConfig → StartupOutcome
deriving DecidableEq, Repr

/-- The startup control flow of main (source lines 208-224): a failed
config load calls sys.exit(1); missing credentials print an ERROR and then
plain `return` from main (source line 219), which ends the interpreter
with exit status 0; otherwise the read loop is entered. -/
def mainStartup (loadResult : Option MainConfig) : StartupOutcome :=
  match loadResult with
  | none => .exitCode 1
  | some cfg =>
    if credMissing cfg.station_id || credMissing cfg.station_key then .exitCode 0
    else .enterLoop cfg

/-- One add_value call in a sequence of calls: the previous call's
returned delta is discarded and the tracker is fed the next observation. -/
def addStep (acc : Except String ℚ × DeltaTracker) (o : ℚ × ℚ) :
    Except String ℚ × DeltaTracker :=
  acc.2.add_value (.num o.2) o.1

/-- A sequence of add_value calls on one tracker, one per (timestamp,
numeric value) observation, returning the last call's result (.ok 0 when
there is no call) and the final tracker. -/
def addValues (tr : DeltaTracker) (obs : List (ℚ × ℚ)) : Except String ℚ × DeltaTracker :=
  obs.foldl addStep (.ok 0, tr)

section Helpers

lemma evict_suffix (c : ℚ) (l : List (ℚ × Value)) : List.IsSuffix (evict c l) l := by
  induction l with
  | nil => simp [evict]
  | cons e rest ih =>
    obtain ⟨t, v⟩ := e
    by_cases h : t < c
    · simpa [evict, h] using ih.trans (List.suffix_cons (t, v) rest)
    · simp [evict, h]

lemma evict_eq_of_head (c : ℚ) (l : List (ℚ × Value))
    (h : ∀ e ∈ l.head?, ¬ e.1 < c) : evict c l = l := by
  cases l with
  | nil => rfl
  | cons e rest =>
    obtain ⟨t, v⟩ := e
    have ht : ¬ t < c := h (t, v) (by simp)
    simp [evict, ht]

lemma evict_not_lt (c : ℚ) (l : List (ℚ × Value))
    (hs : List.Pairwise (fun a b : ℚ × Value => a.1 ≤ b.1) l) :
    ∀ e ∈ evict c l, ¬ e.1 < c := by
  induction l with
  | nil => simp [evict]
  | cons e rest ih =>
    obtain ⟨t, v⟩ := e
    rw [List.pairwise_cons] at hs
    by_cases h : t < c
    · simpa [evict, h] using ih hs.2
    · intro x hx
      simp only [evict, if_neg h] at hx
      rcases List.mem_cons.mp hx with hx | hx
      · subst hx; exact h
      · have := hs.1 x hx
        intro hlt
        exact h (lt_of_le_of_lt this hlt)

lemma evict_concat_getLast? (c : ℚ) (l : List (ℚ × Value)) (t : ℚ) (v : Value)
    (h : ¬ t < c) : (evict c (l ++ [(t, v)])).getLast? = some (t, v) := by
  induction l with
  | nil => simp [evict, h]
  | cons e rest ih =>
    obtain ⟨a, b⟩ := e
    by_cases ha : a < c
    · simpa [evict, ha] using ih
    · have hev : evict c ((a, b) :: (rest ++ [(t, v)])) = (a, b) :: (rest ++ [(t, v)]) := by
        simp [evict, ha]
      have hsh : (a, b) :: (rest ++ [(t, v)]) = ((a, b) :: rest) ++ [(t, v)] := by simp
      rw [List.cons_append, hev, hsh]
      exact List.getLast?_concat _

lemma boundaryDelta_short (l : List (ℚ × Value)) (h : l.length < 2) :
    boundaryDelta l = .ok 0 := by
  match l, h with
  | [], _ => rfl
  | [_], _ => rfl

lemma boundaryDelta_eq (l : List (ℚ × Value)) (x y : ℚ × Value)
    (hhead : l.head? = some x) (hlast : l.getLast? = some y) (hlen : 2 ≤ l.length) :
    boundaryDelta l =
      match valSub y.2 x.2 with
      | .ok d => .ok (max 0 d)
      | .error e => .error e := by
  match l, hlen with
  | a :: b :: t, _ =>
    have hx : x = a := by simpa using hhead.symm
    have hy : (b :: t).getLast (by simp) = y := by
      have h1 : (a :: b :: t).getLast? = (b :: t).getLast? := List.getLast?_cons_cons
      have h2 : (b :: t).getLast? = some ((b :: t).getLast (by simp)) :=
        List.getLast?_eq_getLast _ (by simp)
      rw [h1, h2] at hlast
      simpa using hlast
    subst hx
    simp only [boundaryDelta, hy]

lemma boundaryDelta_ok_nonneg (l : List (ℚ × Value)) (d : ℚ)
    (h : boundaryDelta l = .ok d) : 0 ≤ d := by
  match l with
  | [] =>
    simp only [boundaryDelta, Except.ok.injEq] at h
    exact h.le
  | [_] =>
    simp only [boundaryDelta, Except.ok.injEq] at h
    exact h.le
  | a :: b :: t =>
    simp only [boundaryDelta] at h
    rcases hv : valSub ((b :: t).getLast (by simp)).2 a.2 with e | d'
    · rw [hv] at h
      simp at h
    · rw [hv] at h
      simp only [Except.ok.injEq] at h
      exact h ▸ le_max_left 0 d'

end Helpers

section MapHelpers

lemma Registry.lookup_set_self (reg : Registry) (f : String) (tr : DeltaTracker) :
    (reg.set f tr).lookup f = some tr := by
  induction reg with
  | nil => simp [Registry.set, Registry.lookup]
  | cons e rest ih =>
    obtain ⟨k, old⟩ := e
    by_cases hk : k = f
    · simp [Registry.set, Registry.lookup, hk]
    · simp [Registry.set, Registry.lookup, hk, ih]

lemma Registry.lookup_set_ne (reg : Registry) (f g : String) (tr : DeltaTracker)
    (h : f ≠ g) : (reg.set f tr).lookup g = reg.lookup g := by
  induction reg with
  | nil => simp [Registry.set, Registry.lookup, h]
  | cons e rest ih =>
    obtain ⟨k, old⟩ := e
    by_cases hk : k = f
    · subst hk
      simp [Registry.set, Registry.lookup, h]
    · simp [Registry.set, Registry.lookup, hk, ih]

lemma WuData.lookup_set_other (wu : WuData) (f g : String) (v : Value)
    (h : f ≠ g) : (WuData.set wu f v).lookup g = wu.lookup g := by
  induction wu with
  | nil => simp [WuData.set, WuData.lookup, h]
  | cons e rest ih =>
    obtain ⟨k, old⟩ := e
    by_cases hk : k = f
    · subst hk
      simp [WuData.set, WuData.lookup, h]
    · simp [WuData.set, WuData.lookup, hk, ih]

lemma deltaMmToIn_lookup_period (window : ℚ) (f2 : String) (x : Value) (now : ℚ)
    (reg : Registry) (field : String) :
    ((deltaMmToIn window f2 x now reg).2.lookup field).map DeltaTracker.period_in_minutes =
      if f2 = field then
        match reg.lookup field with
        | some tr => some tr.period_in_minutes
        | none => some window
      else (reg.lookup field).map DeltaTracker.period_in_minutes := by
  have hper : ∀ (tr : DeltaTracker) (v : Value) (t : ℚ),
      (tr.add_value v t).2.period_in_minutes = tr.period_in_minutes := by
    intro tr v t
    simp [DeltaTracker.add_value]
  by_cases hf : f2 = field
  · subst hf
    rcases hreg : reg.lookup f2 with _ | tr
    · simp only [deltaMmToIn, hreg, Registry.lookup_set_self]
      rcases hadd : (DeltaTracker.add_value ⟨f2, [], window⟩ x now) with ⟨d, tr'⟩
      have h2 : tr'.period_in_minutes = window := by
        have := hper ⟨f2, [], window⟩ x now
        rw [hadd] at this
        exact this
      rcases d with e | dm
      all_goals simp [Registry.lookup_set_self, h2]
    · simp only [deltaMmToIn, hreg]
      rcases hadd : tr.add_value x now with ⟨d, tr'⟩
      have h2 : tr'.period_in_minutes = tr.period_in_minutes := by
        have := hper tr x now
        rw [hadd] at this
        exact this
      rcases d with e | dm
      all_goals simp [Registry.lookup_set_self, h2]
  · rcases hreg : reg.lookup f2 with _ | tr
    · simp only [deltaMmToIn, hreg, Registry.lookup_set_self]
      rcases (DeltaTracker.add_value ⟨f2, [], window⟩ x now) with ⟨d, tr'⟩
      rcases d with e | dm
      all_goals simp [hf, Registry.lookup_set_ne _ _ _ _ hf]
    · simp only [deltaMmToIn, hreg]
      rcases tr.add_value x now with ⟨d, tr'⟩
      rcases d with e | dm
      all_goals simp [hf, Registry.lookup_set_ne _ _ _ _ hf]

end MapHelpers

section SequenceHelpers

lemma foldl_addStep_snd (rest : List (ℚ × ℚ)) (p : Except String ℚ × DeltaTracker) :
    (List.foldl addStep p rest).2 = (addValues p.2 rest).2 := by
  cases rest with
  | nil => rfl
  | cons y rest2 => rfl

lemma foldl_addStep_ne_nil (rest : List (ℚ × ℚ)) (h : rest ≠ [])
    (p : Except String ℚ × DeltaTracker) :
    List.foldl addStep p rest = addValues p.2 rest := by
  cases rest with
  | nil => exact absurd rfl h
  | cons y rest2 => rfl

lemma addValues_fst_eq_boundary (obs : List (ℚ × ℚ)) :
    ∀ tr : DeltaTracker, obs ≠ [] →
      (addValues tr obs).1 = boundaryDelta (addValues tr obs).2.values := by
  induction obs with
  | nil => intro tr h; exact absurd rfl h
  | cons o rest ih =>
    intro tr h
    rcases Decidable.em (rest = []) with hr | hr
    · subst hr
      show (tr.add_value (.num o.2) o.1).1 = boundaryDelta (tr.add_value (.num o.2) o.1).2.values
      simp [DeltaTracker.add_value]
    · have h1 : addValues tr (o :: rest) = List.foldl addStep (tr.add_value (.num o.2) o.1) rest := rfl
      rw [h1, foldl_addStep_ne_nil rest hr]
      exact ih _ hr

lemma addValues_values_no_evict (f : String) (W : ℚ) (t0 : ℚ) (v0 : Value) :
    ∀ (obs : List (ℚ × ℚ)) (cur : List (ℚ × Value)),
      cur.head? = some (t0, v0) →
      (∀ o ∈ obs, ¬ t0 < o.1 - W) →
      (addValues ⟨f, cur, W⟩ obs).2.values =
        cur ++ obs.map (fun o => (o.1, Value.num o.2)) := by
  intro obs
  induction obs with
  | nil =>
    intro cur hh hw
    simp [addValues]
  | cons o rest ih =>
    intro cur hh hw
    obtain ⟨a, cur', rfl⟩ : ∃ a cur', cur = a :: cur' := by
      cases cur with
      | nil => exact Option.noConfusion hh
      | cons a cur' => exact ⟨a, cur', rfl⟩
    have ha : a = (t0, v0) := by simpa using hh
    subst ha
    have hstep : addValues ⟨f, (t0, v0) :: cur', W⟩ (o :: rest) =
        List.foldl addStep
          ((⟨f, (t0, v0) :: cur', W⟩ : DeltaTracker).add_value (.num o.2) o.1) rest := rfl
    have hev : evict (o.1 - W) (((t0, v0) :: cur') ++ [(o.1, Value.num o.2)]) =
        ((t0, v0) :: cur') ++ [(o.1, Value.num o.2)] := by
      apply evict_eq_of_head
      intro e he
      simp only [List.cons_append, List.head?_cons, Option.mem_def, Option.some.injEq] at he
      subst he
      exact hw o (by simp)
    have hadd : (⟨f, (t0, v0) :: cur', W⟩ : DeltaTracker).add_value (.num o.2) o.1 =
        (boundaryDelta (((t0, v0) :: cur') ++ [(o.1, Value.num o.2)]),
          ⟨f, ((t0, v0) :: cur') ++ [(o.1, Value.num o.2)], W⟩) := by
      simp only [DeltaTracker.add_value, hev]
    rw [hstep, hadd]
    have hsnd := foldl_addStep_snd rest
      (boundaryDelta (((t0, v0) :: cur') ++ [(o.1, Value.num o.2)]),
        ⟨f, ((t0, v0) :: cur') ++ [(o.1, Value.num o.2)], W⟩)
    rw [hsnd]
    have hih := ih (((t0, v0) :: cur') ++ [(o.1, Value.num o.2)]) (by simp)
      (fun o2 ho2 => hw o2 (by simp [ho2]))
    rw [hih]
    simp

lemma pairwise_fst_le_getLast (l : List (ℚ × ℚ)) (x : ℚ × ℚ)
    (hp : List.Pairwise (fun a b : ℚ × ℚ => a.1 < b.1) l)
    (hl : l.getLast? = some x) : ∀ o ∈ l, o.1 ≤ x.1 := by
  induction l with
  | nil => simp
  | cons a rest ih =>
    rw [List.pairwise_cons] at hp
    intro o ho
    rcases List.mem_cons.mp ho with rfl | ho
    · cases rest with
      | nil =>
        have : o = x := by simpa using hl
        exact this ▸ le_refl _
      | cons y t =>
        rw [List.getLast?_cons_cons] at hl
        obtain ⟨hne, hx⟩ := List.mem_getLast?_eq_getLast (Option.mem_def.mpr hl)
        have hmem : x ∈ y :: t := hx ▸ List.getLast_mem hne
        exact (hp.1 x hmem).le
    · cases rest with
      | nil => exact absurd ho (List.not_mem_nil o)
      | cons y t =>
        rw [List.getLast?_cons_cons] at hl
        exact ih hp.2 hl o ho

end SequenceHelpers

section DispatchHelpers

lemma apply_conversion_snd (now : ℚ) (value : Value) (kind field : String)
    (reg : Registry) (h : ¬ kind = "") :
    (apply_conversion now value kind field reg).2 =
      match conversionsApply now field kind value reg with
      | none => reg
      | some p => p.2 := by
  unfold apply_conversion
  rw [if_neg h]
  rcases hc : conversionsApply now field kind value reg with _ | ⟨r, reg'⟩
  · rfl
  · rcases r with e | v <;> rfl

lemma conversionsApply_cases (now : ℚ) (field kind : String) (value : Value)
    (reg : Registry) :
    (kind = "delta_hour_mm_to_in" ∧
      conversionsApply now field kind value reg = some (deltaMmToIn 60 field value now reg)) ∨
    (kind = "delta_day_mm_to_in" ∧
      conversionsApply now field kind value reg = some (deltaMmToIn (60 * 24) field value now reg)) ∨
    (¬ kind = "delta_hour_mm_to_in" ∧ ¬ kind = "delta_day_mm_to_in" ∧
      (conversionsApply now field kind value reg = none ∨
        ∃ r, conversionsApply now field kind value reg = some (r, reg))) := by
  unfold conversionsApply
  split_ifs with h1 h2 h3 h4 h5 h6 h7
  · exact Or.inr (Or.inr ⟨by simp [h1], by simp [h1], Or.inr ⟨_, rfl⟩⟩)
  · exact Or.inr (Or.inr ⟨by simp [h2], by simp [h2], Or.inr ⟨_, rfl⟩⟩)
  · exact Or.inr (Or.inr ⟨by simp [h3], by simp [h3], Or.inr ⟨_, rfl⟩⟩)
  · exact Or.inr (Or.inr ⟨by simp [h4], by simp [h4], Or.inr ⟨_, rfl⟩⟩)
  · exact Or.inr (Or.inr ⟨by simp [h5], by simp [h5], Or.inr ⟨_, rfl⟩⟩)
  · exact Or.inl ⟨h6, rfl⟩
  · exact Or.inr (Or.inl ⟨h7, rfl⟩)
  · exact Or.inr (Or.inr ⟨h6, h7, Or.inl rfl⟩)

end DispatchHelpers

/-- C9: loading tracker state never raises (the loader catches every
exception): when the pickle file is absent the startup registry ends up
empty, and when the file is present but corrupt or unreadable the registry
is reset to empty whatever it held before, so startup never crashes due to
persistence. -/
theorem C9_load_trackers_fail_open :
    load_delta_trackers .absent initialRegistry = [] ∧
    (∀ reg : Registry, load_delta_trackers .corrupt reg = []) ∧
    (∀ file : PickleFile, ∀ reg : Registry, ∃ result : Registry,
      load_delta_trackers file reg = result) := by
  refine ⟨rfl, fun reg => rfl, fun file reg => ⟨load_delta_trackers file reg, rfl⟩⟩

/-- C5: main does exit non-zero (sys.exit(1)) when the configuration
cannot be loaded, but when the configuration loads and station_id or
station_key is missing or empty, main prints an ERROR and then plain
`return`s, so the interpreter exits with status 0 — contradicting the
claimed non-zero exit. This theorem evaluates the startup control flow at
those inputs. -/
theorem C5_missing_credentials_exit_status :
    mainStartup none = .exitCode 1 ∧
    mainStartup (some ⟨none, some "secret"⟩) = .exitCode 0 ∧
    mainStartup (some ⟨some "KCASAN123", none⟩) = .exitCode 0 ∧
    mainStartup (some ⟨some "", some "secret"⟩) = .exitCode 0 ∧
    mainStartup (some ⟨some "KCASAN123", some "secret"⟩) =
      .enterLoop ⟨some "KCASAN123", some "secret"⟩ := by
  refine ⟨rfl, ?_, ?_, ?_, ?_⟩ <;> decide

/-- C6: apply_conversion never propagates a failure: when the conversion
kind is not a key of the dispatch dict (KeyError), the original value and
untouched registry are returned; when the selected conversion raises
internally, the original value is returned (with whatever registry
mutations happened before the raise, as in the source). -/
theorem C6_conversion_failure_returns_original (now : ℚ) (value : Value)
    (kind field : String) (reg : Registry) :
    (conversionsApply now field kind value reg = none →
      apply_conversion now value kind field reg = (value, reg)) ∧
    (∀ (e : String) (reg' : Registry),
      conversionsApply now field kind value reg = some (.error e, reg') →
      (apply_conversion now value kind field reg).1 = value) := by
  constructor
  · intro hnone
    unfold apply_conversion
    by_cases h0 : kind = ""
    · rw [if_pos h0]
    · rw [if_neg h0, hnone]
  · intro e reg' herr
    unfold apply_conversion
    by_cases h0 : kind = ""
    · rw [if_pos h0]
    · rw [if_neg h0, herr]

/-- C6 witness: a concrete unknown kind ("bogus") returns the input
unchanged, and a concrete raising conversion (c_to_f applied to a string,
a TypeError in the source) returns the input unchanged. -/
theorem C6_conversion_failure_witness :
    (conversionsApply 0 "temperature_C" "bogus" (.num 7) [] = none ∧
      apply_conversion 0 (.num 7) "bogus" "temperature_C" [] = (.num 7, [])) ∧
    (conversionsApply 0 "temperature_C" "c_to_f" (.str "oops") [] =
        some (.error "TypeError", []) ∧
      (apply_conversion 0 (.str "oops") "c_to_f" "temperature_C" []).1 = .str "oops") := by
  have h1 : conversionsApply 0 "temperature_C" "bogus" (.num 7) [] = none := by
    simp [conversionsApply]
  have h2 : conversionsApply 0 "temperature_C" "c_to_f" (.str "oops") [] =
      some (.error "TypeError", []) := by
    simp [conversionsApply, numOp]
  exact ⟨⟨h1, (C6_conversion_failure_returns_original 0 (.num 7) "bogus" "temperature_C" []).1 h1⟩,
    ⟨h2, (C6_conversion_failure_returns_original 0 (.str "oops") "c_to_f" "temperature_C" []).2
      "TypeError" [] h2⟩⟩

/-- C10: the stateless conversions compute exactly the spec formulas
(v * 9/5 + 32, v * 2.237, v / 25.4, v * 0.02953), and end-to-end the
reading with temperature_C = 20 and rain_mm = 5 under the two rules yields
an outbound record with tempf = 68 and rainin = 5/25.4, which is within
0.0001 of 0.1969. -/
theorem C10_stateless_formulas (now : ℚ) (f : String) (reg : Registry) (v : ℚ) :
    apply_conversion now (.num v) "c_to_f" f reg = (.num (v * 9 / 5 + 32), reg) ∧
    apply_conversion now (.num v) "ms_to_mph" f reg = (.num (v * 2.237), reg) ∧
    apply_conversion now (.num v) "mm_to_in" f reg = (.num (v / 25.4), reg) ∧
    apply_conversion now (.num v) "hpa_to_inhg" f reg = (.num (v * 0.02953), reg) ∧
    (let res := populate_wunderground_request_data 0
        [("temperature_C", .num 20), ("rain_mm", .num 5)]
        [⟨"temperature_C", "tempf", some "c_to_f"⟩, ⟨"rain_mm", "rainin", some "mm_to_in"⟩]
        ⟨"KCASAN123", "secret"⟩ DEFAULT_WU_DATA []
     res.1.lookup "tempf" = some (.num 68) ∧
     res.1.lookup "rainin" = some (.num (5 / 25.4)) ∧
     |(5 / 25.4 : ℚ) - 0.1969| < 1 / 10000) := by
  refine ⟨?_, ?_, ?_, ?_, ?_, ?_, ?_⟩
  · simp [apply_conversion, conversionsApply, numOp]
  · simp [apply_conversion, conversionsApply, numOp]
  · simp [apply_conversion, conversionsApply, numOp]
  · simp [apply_conversion, conversionsApply, numOp]
  · simp [populate_wunderground_request_data, populateStep,
      Reading.lookup, WuData.set, WuData.lookup, DEFAULT_WU_DATA,
      apply_conversion, conversionsApply, numOp]
    all_goals norm_num
  · simp [populate_wunderground_request_data, populateStep,
      Reading.lookup, WuData.set, WuData.lookup, DEFAULT_WU_DATA,
      apply_conversion, conversionsApply, numOp]
  · rw [abs_lt]
    constructor <;> norm_num

/-- C7: delta_hour_mm_to_in creates the tracker with a 60-minute window
and divides the observed delta by 25.4: observing rain_mm = 10 and then
rain_mm = 15 exactly one hour later (the first observation sits exactly at
the cutoff and is retained, not evicted) returns (15 - 10) / 25.4 on the
second call. -/
theorem C7_hourly_delta_conversion (t0 : ℚ) :
    (apply_conversion t0 (.num 10) "delta_hour_mm_to_in" "rain_mm" []).1 = .num 0 ∧
    ((apply_conversion t0 (.num 10) "delta_hour_mm_to_in" "rain_mm" []).2.lookup
        "rain_mm").map DeltaTracker.period_in_minutes = some 60 ∧
    (apply_conversion (t0 + 60) (.num 15) "delta_hour_mm_to_in" "rain_mm"
        (apply_conversion t0 (.num 10) "delta_hour_mm_to_in" "rain_mm" []).2).1 =
      .num ((15 - 10) / 25.4) := by
  have hlt1 : ¬ t0 < t0 - 60 := by linarith
  have h1 : apply_conversion t0 (.num 10) "delta_hour_mm_to_in" "rain_mm" [] =
      (.num 0, [("rain_mm", ⟨"rain_mm", [(t0, .num 10)], 60⟩)]) := by
    simp [apply_conversion, conversionsApply, deltaMmToIn, Registry.lookup, Registry.set,
      DeltaTracker.add_value, evict, hlt1, boundaryDelta]
  have hlt2 : ¬ t0 < t0 + 60 - 60 := by linarith
  have hd : deltaMmToIn 60 "rain_mm" (.num 15) (t0 + 60)
      [("rain_mm", ⟨"rain_mm", [(t0, .num 10)], 60⟩)] =
      (.ok (.num ((15 - 10) / 25.4)),
        [("rain_mm", ⟨"rain_mm", [(t0, .num 10), (t0 + 60, .num 15)], 60⟩)]) := by
    simp [deltaMmToIn, Registry.lookup, Registry.set, DeltaTracker.add_value,
      evict, hlt2, boundaryDelta, valSub]
    norm_num
  have hca : conversionsApply (t0 + 60) "rain_mm" "delta_hour_mm_to_in" (.num 15)
      [("rain_mm", ⟨"rain_mm", [(t0, .num 10)], 60⟩)] =
      some (deltaMmToIn 60 "rain_mm" (.num 15) (t0 + 60)
        [("rain_mm", ⟨"rain_mm", [(t0, .num 10)], 60⟩)]) := by
    simp [conversionsApply]
  have h2 : (apply_conversion (t0 + 60) (.num 15) "delta_hour_mm_to_in" "rain_mm"
      [("rain_mm", ⟨"rain_mm", [(t0, .num 10)], 60⟩)]).1 = .num ((15 - 10) / 25.4) := by
    unfold apply_conversion
    rw [if_neg (by decide), hca, hd]
  exact ⟨by rw [h1], by rw [h1]; rfl, by rw [h1]; exact h2⟩

/-- C4: populate_wunderground_request_data binds the module-level
DEFAULT_WU_DATA without copying it, so destination fields written by one
call persist into the next: after a first call whose reading carries
rain_mm and a second call whose reading lacks it, the second returned
record still holds the rainin value set by the first call, and the second
call returns the shared record state unchanged (the very dict the first
call returned). -/
theorem C4_default_record_is_shared :
    (let rules := [Translation.mk "rain_mm" "rainin" (some "mm_to_in")]
     let cfg := Config.mk "KCASAN123" "secret"
     let call1 := populate_wunderground_request_data 0 [("rain_mm", .num 5)]
        rules cfg DEFAULT_WU_DATA []
     let call2 := populate_wunderground_request_data 0 [] rules cfg call1.1 call1.2
     call2.1.lookup "rainin" = some (.num (5 / 25.4)) ∧ call2.1 = call1.1) := by
  constructor
  · simp [populate_wunderground_request_data, populateStep,
      Reading.lookup, WuData.set, WuData.lookup, DEFAULT_WU_DATA,
      apply_conversion, conversionsApply, numOp]
  · simp [populate_wunderground_request_data, populateStep,
      Reading.lookup, WuData.set, WuData.lookup, DEFAULT_WU_DATA,
      apply_conversion, conversionsApply, numOp]

lemma populate_foldl_lookup_skip (now : ℚ) (json_data : Reading) (dest : String) :
    ∀ (ts : List Translation) (acc : WuData × Registry),
      (∀ trans ∈ ts, trans.field = dest → json_data.lookup trans.rtl_field = none) →
      ((ts.foldl (populateStep now json_data) acc).1).lookup dest = acc.1.lookup dest := by
  intro ts
  induction ts with
  | nil => intro acc h; rfl
  | cons trans rest ih =>
    intro acc h
    rw [List.foldl_cons, ih _ (fun t ht => h t (List.mem_cons_of_mem _ ht))]
    rcases hsrc : json_data.lookup trans.rtl_field with _ | value
    · simp [populateStep, hsrc]
    · have hne : trans.field ≠ dest := by
        intro hEq
        have := h trans (List.mem_cons_self _ _) hEq
        rw [hsrc] at this
        exact Option.noConfusion this
      simp only [populateStep, hsrc]
      exact WuData.lookup_set_other _ _ _ _ hne

/-- C3: the record translator sets nothing at the destination of a rule
whose source field is absent from the reading: as long as every rule
targeting a destination (other than the credential fields PASSWORD and ID)
has its source absent, that destination holds exactly what the shared
record already held before the call, whatever sequence of earlier calls
produced that state. -/
theorem C3_absent_source_sets_nothing (now : ℚ) (json_data : Reading)
    (translations : List Translation) (config : Config) (wu_data : WuData)
    (reg : Registry) (dest : String)
    (hp : dest ≠ "PASSWORD") (hi : dest ≠ "ID")
    (habsent : ∀ trans ∈ translations, trans.field = dest →
      json_data.lookup trans.rtl_field = none) :
    ((populate_wunderground_request_data now json_data translations config
        wu_data reg).1).lookup dest = wu_data.lookup dest := by
  unfold populate_wunderground_request_data
  rw [populate_foldl_lookup_skip now json_data dest translations _ habsent]
  rw [WuData.lookup_set_other _ _ _ _ (Ne.symm hi), WuData.lookup_set_other _ _ _ _ (Ne.symm hp)]

/-- C3 witness: with the single rule rain_mm → rainin and a reading that
lacks rain_mm, the outbound record does not acquire a rainin field when
the shared record starts from the fresh DEFAULT_WU_DATA. -/
theorem C3_absent_source_witness :
    ("rainin" ≠ "PASSWORD" ∧ "rainin" ≠ "ID" ∧
      (∀ trans ∈ [Translation.mk "rain_mm" "rainin" (some "mm_to_in")],
        trans.field = "rainin" →
        Reading.lookup [("temperature_C", Value.num 20)] trans.rtl_field = none)) ∧
    ((populate_wunderground_request_data 0 [("temperature_C", Value.num 20)]
        [Translation.mk "rain_mm" "rainin" (some "mm_to_in")]
        ⟨"KCASAN123", "secret"⟩ DEFAULT_WU_DATA []).1).lookup "rainin" = none := by
  refine ⟨⟨by decide, by decide, by decide⟩, ?_⟩
  rw [C3_absent_source_sets_nothing 0 [("temperature_C", Value.num 20)]
    [Translation.mk "rain_mm" "rainin" (some "mm_to_in")]
    ⟨"KCASAN123", "secret"⟩ DEFAULT_WU_DATA [] "rainin"
    (by decide) (by decide) (by decide)]
  decide

/-- C8: the registry keeps exactly one tracker per field with a window
fixed at creation: any apply_conversion call leaves the window of an
already-registered tracker unchanged (whatever field and kind the call is
for), a stateful conversion on an unregistered field creates its tracker
with the requesting conversion's window (60 for hourly, 1440 for daily)
while non-stateful kinds register nothing, and when a field is first
observed through the hourly conversion and later through the daily one the
first-created 60-minute window wins. -/
theorem C8_one_tracker_per_field_window_fixed (now : ℚ) (value : Value)
    (kind field : String) (reg : Registry) :
    (∀ (f2 : String) (tr : DeltaTracker), reg.lookup field = some tr →
      ((apply_conversion now value kind f2 reg).2.lookup field).map
        DeltaTracker.period_in_minutes = some tr.period_in_minutes) ∧
    (reg.lookup field = none →
      ((apply_conversion now value kind field reg).2.lookup field).map
        DeltaTracker.period_in_minutes =
        (if kind = "delta_hour_mm_to_in" then some 60
         else if kind = "delta_day_mm_to_in" then some (60 * 24)
         else none)) ∧
    (∀ (now2 : ℚ) (v2 : Value), reg.lookup field = none →
      (((apply_conversion now2 v2 "delta_day_mm_to_in" field
          (apply_conversion now value "delta_hour_mm_to_in" field reg).2).2).lookup
        field).map DeltaTracker.period_in_minutes = some 60) := by
  have preserved : ∀ (now3 : ℚ) (v3 : Value) (kind3 f2 : String) (reg3 : Registry)
      (tr : DeltaTracker), reg3.lookup field = some tr →
      ((apply_conversion now3 v3 kind3 f2 reg3).2.lookup field).map
        DeltaTracker.period_in_minutes = some tr.period_in_minutes := by
    intro now3 v3 kind3 f2 reg3 tr hlook
    by_cases h0 : kind3 = ""
    · subst h0
      simp [apply_conversion, hlook]
    · rw [apply_conversion_snd now3 v3 kind3 f2 reg3 h0]
      rcases conversionsApply_cases now3 f2 kind3 v3 reg3 with ⟨hk, hc⟩ | ⟨hk, hc⟩ | ⟨hk1, hk2, hc⟩
      · rw [hc]
        rw [deltaMmToIn_lookup_period]
        by_cases hf : f2 = field
        · simp [hf, hlook]
        · simp [hf, hlook]
      · rw [hc]
        rw [deltaMmToIn_lookup_period]
        by_cases hf : f2 = field
        · simp [hf, hlook]
        · simp [hf, hlook]
      · rcases hc with hc | ⟨r, hc⟩
        · rw [hc, hlook]; rfl
        · rw [hc, hlook]; rfl
  have created : ∀ (now3 : ℚ) (v3 : Value) (kind3 : String) (reg3 : Registry),
      reg3.lookup field = none →
      ((apply_conversion now3 v3 kind3 field reg3).2.lookup field).map
        DeltaTracker.period_in_minutes =
        (if kind3 = "delta_hour_mm_to_in" then some 60
         else if kind3 = "delta_day_mm_to_in" then some (60 * 24)
         else none) := by
    intro now3 v3 kind3 reg3 hlook
    by_cases h0 : kind3 = ""
    · subst h0
      simp [apply_conversion, hlook]
    · rw [apply_conversion_snd now3 v3 kind3 field reg3 h0]
      rcases conversionsApply_cases now3 field kind3 v3 reg3 with ⟨hk, hc⟩ | ⟨hk, hc⟩ | ⟨hk1, hk2, hc⟩
      · rw [hc, deltaMmToIn_lookup_period]
        simp [hk, hlook]
      · rw [hc, deltaMmToIn_lookup_period]
        have : ¬ kind3 = "delta_hour_mm_to_in" := by simp [hk]
        simp [hk, this, hlook]
      · rcases hc with hc | ⟨r, hc⟩
        · rw [hc, hlook]
          simp [hk1, hk2]
        · rw [hc, hlook]
          simp [hk1, hk2]
  refine ⟨fun f2 tr hlook => preserved now value kind f2 reg tr hlook,
    fun hlook => created now value kind reg hlook, ?_⟩
  intro now2 v2 hlook
  have h1 := created now value "delta_hour_mm_to_in" reg hlook
  rw [if_pos rfl] at h1
  rcases hl2 : ((apply_conversion now value "delta_hour_mm_to_in" field reg).2).lookup field with
    _ | tr1
  · rw [hl2] at h1
    exact Option.noConfusion h1
  · rw [hl2] at h1
    have hper : tr1.period_in_minutes = 60 := by simpa using h1
    have := preserved now2 v2 "delta_day_mm_to_in" field
      (apply_conversion now value "delta_hour_mm_to_in" field reg).2 tr1 hl2
    rw [this, hper]

/-- C8 witness: a field with a registered 60-minute tracker keeps window
60 across a daily-conversion call, an unregistered field observed through
the hourly conversion gets window 60, and hourly-then-daily on a fresh
field leaves window 60. -/
theorem C8_one_tracker_witness :
    (Registry.lookup [("rain_mm", ⟨"rain_mm", [], 60⟩)] "rain_mm" =
        some ⟨"rain_mm", [], 60⟩ ∧
      ((apply_conversion 5 (.num 1) "delta_day_mm_to_in" "rain_mm"
          [("rain_mm", ⟨"rain_mm", [], 60⟩)]).2.lookup "rain_mm").map
        DeltaTracker.period_in_minutes = some 60) ∧
    (Registry.lookup [] "rain_mm" = none ∧
      ((apply_conversion 5 (.num 1) "delta_hour_mm_to_in" "rain_mm" []).2.lookup
        "rain_mm").map DeltaTracker.period_in_minutes = some 60 ∧
      (((apply_conversion 6 (.num 2) "delta_day_mm_to_in" "rain_mm"
          (apply_conversion 5 (.num 1) "delta_hour_mm_to_in" "rain_mm" []).2).2).lookup
        "rain_mm").map DeltaTracker.period_in_minutes = some 60) := by
  have hsome : Registry.lookup [("rain_mm", ⟨"rain_mm", [], 60⟩)] "rain_mm" =
      some ⟨"rain_mm", [], 60⟩ := by decide
  have hnone : Registry.lookup ([] : Registry) "rain_mm" = none := by decide
  have h1 := (C8_one_tracker_per_field_window_fixed 5 (.num 1) "delta_day_mm_to_in"
    "rain_mm" [("rain_mm", ⟨"rain_mm", [], 60⟩)]).1 "rain_mm" ⟨"rain_mm", [], 60⟩ hsome
  have h2 := (C8_one_tracker_per_field_window_fixed 5 (.num 1) "delta_hour_mm_to_in"
    "rain_mm" []).2.1 hnone
  have h3 := (C8_one_tracker_per_field_window_fixed 5 (.num 1) "delta_hour_mm_to_in"
    "rain_mm" []).2.2 6 (.num 2) hnone
  rw [if_pos rfl] at h2
  exact ⟨⟨hsome, h1⟩, hnone, h2, h3⟩

/-- C2: with a nonnegative window and timestamps that have stayed
non-decreasing, an add_value call at time t leaves no retained entry
strictly older than the cutoff t - W, never removes the entry just
inserted (it is the last retained entry), removes entries only from the
head of the sequence, and computes the returned delta from the retained
sequence alone, so evicted entries cannot contribute to it. -/
theorem C2_eviction_invariant (tr : DeltaTracker) (v : Value) (t : ℚ)
    (hW : 0 ≤ tr.period_in_minutes)
    (hmono : ∀ e ∈ tr.values, e.1 ≤ t)
    (hsorted : List.Pairwise (fun a b : ℚ × Value => a.1 ≤ b.1) tr.values) :
    (∀ e ∈ (tr.add_value v t).2.values, ¬ e.1 < t - tr.period_in_minutes) ∧
    (tr.add_value v t).2.values.getLast? = some (t, v) ∧
    List.IsSuffix (tr.add_value v t).2.values (tr.values ++ [(t, v)]) ∧
    (tr.add_value v t).1 = boundaryDelta (tr.add_value v t).2.values := by
  have hcut : ¬ t < t - tr.period_in_minutes := by linarith
  have hvals : (tr.add_value v t).2.values =
      evict (t - tr.period_in_minutes) (tr.values ++ [(t, v)]) := rfl
  have happ : List.Pairwise (fun a b : ℚ × Value => a.1 ≤ b.1) (tr.values ++ [(t, v)]) := by
    rw [List.pairwise_append]
    exact ⟨hsorted, List.pairwise_singleton _ _,
      fun a ha b hb => by
        simp only [List.mem_singleton] at hb
        subst hb
        exact hmono a ha⟩
  refine ⟨?_, ?_, ?_, rfl⟩
  · rw [hvals]
    exact evict_not_lt _ _ happ
  · rw [hvals]
    exact evict_concat_getLast? _ _ _ _ hcut
  · rw [hvals]
    exact evict_suffix _ _

/-- C2 witness: inserting (30, 15) into a 60-minute tracker holding (0, 10)
satisfies the hypotheses and retains the inserted entry as the last one,
with nothing older than the cutoff retained. -/
theorem C2_eviction_witness :
    ((0:ℚ) ≤ (60:ℚ) ∧
      (∀ e ∈ [((0:ℚ), Value.num 10)], e.1 ≤ (30:ℚ)) ∧
      List.Pairwise (fun a b : ℚ × Value => a.1 ≤ b.1) [((0:ℚ), Value.num 10)]) ∧
    ((⟨"rain_mm", [((0:ℚ), Value.num 10)], 60⟩ : DeltaTracker).add_value
        (Value.num 15) 30).2.values.getLast? = some (30, Value.num 15) ∧
    (∀ e ∈ ((⟨"rain_mm", [((0:ℚ), Value.num 10)], 60⟩ : DeltaTracker).add_value
        (Value.num 15) 30).2.values, ¬ e.1 < 30 - (60:ℚ)) := by
  have hmono : ∀ e ∈ [((0:ℚ), Value.num 10)], e.1 ≤ (30:ℚ) := by
    intro e he
    simp only [List.mem_singleton] at he
    subst he
    norm_num
  have h := C2_eviction_invariant ⟨"rain_mm", [((0:ℚ), Value.num 10)], 60⟩
    (Value.num 15) 30 (by norm_num) hmono (List.pairwise_singleton _ _)
  exact ⟨⟨by norm_num, hmono, List.pairwise_singleton _ _⟩, h.2.1, h.1⟩

/-- C1: the delta returned by add_value is 0 when fewer than two entries
remain after eviction, and otherwise max(0, last - first) over the
retained entries; a run of N ≥ 2 insertions with strictly increasing
timestamps all inside the window on a fresh tracker returns
max(0, last inserted - first inserted); a single insertion on a fresh
tracker returns 0; and every returned delta is nonnegative, so a counter
reset yields 0 rather than a negative delta. -/
theorem C1_boundary_delta_result :
    (∀ (tr : DeltaTracker) (v : Value) (t : ℚ),
      ((tr.add_value v t).2.values.length < 2 → (tr.add_value v t).1 = .ok 0) ∧
      (∀ (t1 t2 a b : ℚ),
        (tr.add_value v t).2.values.head? = some (t1, .num a) →
        (tr.add_value v t).2.values.getLast? = some (t2, .num b) →
        2 ≤ (tr.add_value v t).2.values.length →
        (tr.add_value v t).1 = .ok (max 0 (b - a)))) ∧
    (∀ (f : String) (W : ℚ) (obs : List (ℚ × ℚ)) (t1 v1 tN vN : ℚ),
      0 ≤ W → obs.head? = some (t1, v1) → obs.getLast? = some (tN, vN) →
      2 ≤ obs.length →
      List.Pairwise (fun a b : ℚ × ℚ => a.1 < b.1) obs →
      tN - t1 ≤ W →
      (addValues ⟨f, [], W⟩ obs).1 = .ok (max 0 (vN - v1))) ∧
    (∀ (f : String) (W v t : ℚ),
      ((⟨f, [], W⟩ : DeltaTracker).add_value (.num v) t).1 = .ok 0) ∧
    (∀ (tr : DeltaTracker) (v : Value) (t : ℚ) (d : ℚ),
      (tr.add_value v t).1 = .ok d → 0 ≤ d) := by
  refine ⟨?_, ?_, ?_, ?_⟩
  · intro tr v t
    constructor
    · intro hlen
      exact boundaryDelta_short _ hlen
    · intro t1 t2 a b hh hl hlen
      have := boundaryDelta_eq (tr.add_value v t).2.values (t1, .num a) (t2, .num b) hh hl hlen
      show boundaryDelta (tr.add_value v t).2.values = _
      rw [this]
      rfl
  · intro f W obs t1 v1 tN vN hW hhead hlast hlen hpair hwin
    obtain ⟨o1, rest, rfl⟩ : ∃ o1 rest, obs = o1 :: rest := by
      cases obs with
      | nil => exact Option.noConfusion hhead
      | cons o1 rest => exact ⟨o1, rest, rfl⟩
    have ho1 : o1 = (t1, v1) := by simpa using hhead
    subst ho1
    have hrest : rest ≠ [] := by
      intro h
      subst h
      simp at hlen
    have hbound : ∀ o ∈ (t1, v1) :: rest, o.1 ≤ tN :=
      pairwise_fst_le_getLast _ (tN, vN) hpair hlast
    have hcut1 : ¬ t1 < t1 - W := by linarith
    have hstep1 : (⟨f, [], W⟩ : DeltaTracker).add_value (.num v1) t1 =
        (boundaryDelta [(t1, Value.num v1)], ⟨f, [(t1, Value.num v1)], W⟩) := by
      simp [DeltaTracker.add_value, evict, hcut1]
    have hchain : addValues ⟨f, [], W⟩ ((t1, v1) :: rest) =
        List.foldl addStep ((⟨f, [], W⟩ : DeltaTracker).add_value (.num v1) t1) rest := rfl
    have hvals : (addValues ⟨f, [], W⟩ ((t1, v1) :: rest)).2.values =
        [(t1, Value.num v1)] ++ rest.map (fun o => (o.1, Value.num o.2)) := by
      rw [hchain, hstep1]
      rw [foldl_addStep_snd]
      exact addValues_values_no_evict f W t1 (Value.num v1) rest [(t1, Value.num v1)] rfl
        (fun o ho => by
          have h1 : o.1 ≤ tN := hbound o (List.mem_cons_of_mem _ ho)
          intro hcon
          linarith)
    have hfst := addValues_fst_eq_boundary ((t1, v1) :: rest) ⟨f, [], W⟩ (by simp)
    rw [hfst, hvals]
    have hmap : [(t1, Value.num v1)] ++ rest.map (fun o => (o.1, Value.num o.2)) =
        ((t1, v1) :: rest).map (fun o => (o.1, Value.num o.2)) := by simp
    rw [hmap]
    have hh2 : (((t1, v1) :: rest).map (fun o => (o.1, Value.num o.2))).head? =
        some (t1, Value.num v1) := by simp
    have hl2 : (((t1, v1) :: rest).map (fun o => (o.1, Value.num o.2))).getLast? =
        some (tN, Value.num vN) := by
      rw [List.getLast?_map, hlast]
      rfl
    have hlen2 : 2 ≤ (((t1, v1) :: rest).map (fun o => (o.1, Value.num o.2))).length := by
      rw [List.length_map]
      exact hlen
    rw [boundaryDelta_eq _ _ _ hh2 hl2 hlen2]
    rfl
  · intro f W v t
    show boundaryDelta (evict (t - W) ([] ++ [(t, Value.num v)])) = .ok 0
    by_cases h : t < t - W
    · simp [evict, h, boundaryDelta]
    · simp [evict, h, boundaryDelta]
  · intro tr v t d h
    exact boundaryDelta_ok_nonneg _ _ h

/-- C1 witness: two insertions (0, 10) and (30, 15) on a fresh 60-minute
tracker satisfy the hypotheses (strictly increasing timestamps, both
within the window) and the run returns max(0, 15 - 10); and the general
boundary form holds on the resulting retained sequence. -/
theorem C1_boundary_delta_witness :
    ((0:ℚ) ≤ 60 ∧
      ([((0:ℚ), (10:ℚ)), (30, 15)]).head? = some (0, 10) ∧
      ([((0:ℚ), (10:ℚ)), (30, 15)]).getLast? = some (30, 15) ∧
      2 ≤ ([((0:ℚ), (10:ℚ)), (30, 15)]).length ∧
      List.Pairwise (fun a b : ℚ × ℚ => a.1 < b.1) [((0:ℚ), (10:ℚ)), (30, 15)] ∧
      (30:ℚ) - 0 ≤ 60) ∧
    (addValues ⟨"rain_mm", [], 60⟩ [(0, 10), (30, 15)]).1 = .ok (max 0 (15 - 10)) := by
  refine ⟨⟨by norm_num, rfl, rfl, by norm_num,
    by norm_num [List.pairwise_cons], by norm_num⟩, ?_⟩
  exact C1_boundary_delta_result.2.1 "rain_mm" 60 [(0, 10), (30, 15)] 0 10 30 15
    (by norm_num) rfl rfl (by norm_num) (by norm_num [List.pairwise_cons]) (by norm_num)
